import Mathlib

/-!
Shallow embedding of the event-processing core of the evsieve_pn repository.

The sources embedded here are `src/event.rs`, `src/stream.rs`, `src/main.rs`
and `src/io/input.rs`.  The repository ships only those four files; the
modules they reference (`map`, `hook`, `toggle`, `merge`, `withhold`,
`delay`, `capability`, `state`, `loopback`, `io/output`, `io/epoll`,
`ecodes`, `predevice`, `bindings/libevdev`) are absent.  Their payload
types and behaviours are therefore kept abstract: the development is
parametric over a signature `Sig` of the unknown types and a `Behavior`
record of the unknown functions, so every theorem proved below holds for
every possible implementation of the missing modules.  Where a concrete
fact about a missing module is indispensable, a definition is introduced
whose doc comment starts with "Modelled from the spec:".
-/

namespace Evsieve

/-! ## Event model (src/event.rs) -/

/-- Kernel event type, a `u16` in the source (`pub type EventType = u16`). -/
abbrev EventType := Nat

/-- Kernel event code, a `u16` in the source (`pub type EventCode = u16`). -/
abbrev EventCode := Nat

/-- Event value, an `i32` in the source (`pub type EventValue = i32`). -/
abbrev EventValue := Int

/-- Modelled from the spec: a `Domain` is "an opaque tag (small integer /
interned name)" identifying the logical source of an event; `domain.rs` is
not among the shipped sources. -/
abbrev Domain := Nat

/-- The `Namespace` enum of `src/event.rs`. -/
inductive Namespace where
  | Input
  | User
  | Yielded
  | Output
deriving DecidableEq, Repr

/-- The `Event` struct of `src/event.rs`. -/
structure Event where
  ev_type : EventType
  code : EventCode
  value : EventValue
  previous_value : EventValue
  domain : Domain
  «namespace» : Namespace
deriving DecidableEq, Repr

/-- The constructor `Event::new` of `src/event.rs`. -/
def Event.new (ev_type : EventType) (code : EventCode) (value : EventValue)
    (previous_value : EventValue) (domain : Domain) (nsp : Namespace) : Event :=
  { ev_type := ev_type, code := code, value := value,
    previous_value := previous_value, domain := domain, «namespace» := nsp }

/-- Modelled from the spec: `event.ev_type().is_syn()` comes from the missing
`ecodes` module; it recognises kernel synchronization events, whose kernel
event type `EV_SYN` is 0. -/
def EventType.is_syn (t : EventType) : Bool := t == 0

/-! ## Abstract signature for the missing stream-entry payloads

The Rust `StreamEntry` enum wraps one payload per variant (`Map`, `Hook`,
`Toggle`, `EventPrinter`, `Merge`, `Withhold`, `Delay`); those types live in
modules that are not part of the shipped sources.  `Sig` collects one
abstract type per unknown payload, plus the unknown `State`, loopback
handle, token, output-system, `Capability` and `Capabilities` types. -/

structure Sig where
  MapT : Type
  HookT : Type
  ToggleT : Type
  PrintT : Type
  MergeT : Type
  WithholdT : Type
  DelayT : Type
  StateT : Type
  LoopbackT : Type
  TokenT : Type
  OutputT : Type
  CapT : Type
  CapsT : Type

/-- The `StreamEntry` enum of `src/stream.rs`, with abstract payloads. -/
inductive StreamEntry (σ : Sig) where
  | Map : σ.MapT → StreamEntry σ
  | Hook : σ.HookT → StreamEntry σ
  | Toggle : σ.ToggleT → StreamEntry σ
  | Print : σ.PrintT → StreamEntry σ
  | Merge : σ.MergeT → StreamEntry σ
  | Withhold : σ.WithholdT → StreamEntry σ
  | Delay : σ.DelayT → StreamEntry σ

/-- The operations the missing modules provide on the abstract payloads.
Each `apply_to_all` function takes the payload by mutable reference in Rust,
so it returns the updated payload here; the extra `State` and loopback
arguments follow the call sites in `src/stream.rs`.  The record also carries
the functions of the missing `capability` module (`aggregate_capabilities`,
`input_caps_to_vec`, the `namespace` field of `Capability`, the
`is_compatible_with` test of `Capabilities`) and of the missing
`io/output` module (`route_events`, `synchronize`, `update_caps`). -/
structure Behavior (σ : Sig) where
  map_apply_to_all : σ.MapT → List Event → List Event × σ.MapT
  toggle_apply_to_all : σ.ToggleT → List Event → σ.StateT → List Event × σ.ToggleT × σ.StateT
  merge_apply_to_all : σ.MergeT → List Event → List Event × σ.MergeT
  hook_apply_to_all :
    σ.HookT → List Event → σ.StateT → σ.LoopbackT → List Event × σ.HookT × σ.StateT × σ.LoopbackT
  delay_apply_to_all : σ.DelayT → List Event → σ.LoopbackT → List Event × σ.DelayT × σ.LoopbackT
  withhold_apply_to_all :
    σ.WithholdT → List Event → σ.LoopbackT → List Event × σ.WithholdT × σ.LoopbackT
  print_apply_to_all : σ.PrintT → List Event → σ.PrintT
  hook_wakeup : σ.HookT → σ.TokenT → σ.HookT
  delay_wakeup : σ.DelayT → σ.TokenT → List Event × σ.DelayT
  withhold_wakeup : σ.WithholdT → σ.TokenT → List Event × σ.WithholdT
  map_apply_to_all_caps : σ.MapT → List σ.CapT → List σ.CapT
  toggle_apply_to_all_caps : σ.ToggleT → List σ.CapT → List σ.CapT
  hook_apply_to_all_caps : σ.HookT → List σ.CapT → List σ.CapT
  aggregate_capabilities : List σ.CapT → List σ.CapT
  cap_namespace : σ.CapT → Namespace
  input_caps_to_vec : List (Domain × σ.CapsT) → List σ.CapT
  is_compatible_with : σ.CapsT → σ.CapsT → Bool
  route_events : σ.OutputT → List Event → σ.OutputT
  synchronize : σ.OutputT → σ.OutputT
  output_update_caps : σ.OutputT → List σ.CapT → σ.OutputT

variable {σ : Sig}

/-! ## The stream runner (src/stream.rs) -/

/-- One arm of the `match entry` dispatch inside `run_event` of
`src/stream.rs`: apply the entry to the current event buffer, producing the
next buffer (the `buffer`/`swap` dance of the source), the mutated entry,
and the mutated state and loopback handle.  A `Print` entry only observes
the buffer (`printer.apply_to_all(&events)` writes no output buffer and no
swap happens), so the events pass through unchanged. -/
def run_entry (b : Behavior σ) (entry : StreamEntry σ) (events : List Event)
    (state : σ.StateT) (loopback : σ.LoopbackT) :
    List Event × StreamEntry σ × σ.StateT × σ.LoopbackT :=
  match entry with
  | .Map m =>
      let r := b.map_apply_to_all m events
      (r.1, .Map r.2, state, loopback)
  | .Toggle t =>
      let r := b.toggle_apply_to_all t events state
      (r.1, .Toggle r.2.1, r.2.2, loopback)
  | .Merge m =>
      let r := b.merge_apply_to_all m events
      (r.1, .Merge r.2, state, loopback)
  | .Hook h =>
      let r := b.hook_apply_to_all h events state loopback
      (r.1, .Hook r.2.1, r.2.2.1, r.2.2.2)
  | .Delay d =>
      let r := b.delay_apply_to_all d events loopback
      (r.1, .Delay r.2.1, state, r.2.2)
  | .Withhold w =>
      let r := b.withhold_apply_to_all w events loopback
      (r.1, .Withhold r.2.1, state, r.2.2)
  | .Print p =>
      (events, .Print (b.print_apply_to_all p events), state, loopback)

/-- The `for entry in stream` loop of `run_event` in `src/stream.rs`:
thread the event buffer through the entries front to back. -/
def run_entries (b : Behavior σ) :
    List Event → List (StreamEntry σ) → σ.StateT → σ.LoopbackT →
    List Event × List (StreamEntry σ) × σ.StateT × σ.LoopbackT
  | events, [], state, loopback => (events, [], state, loopback)
  | events, entry :: rest, state, loopback =>
      let r := run_entry b entry events state loopback
      let q := run_entries b r.1 rest r.2.2.1 r.2.2.2
      (q.1, r.2.1 :: q.2.1, q.2.2)

/-- The function `run_event` of `src/stream.rs`: push the single input event
through all entries, then append to `events_out` exactly those surviving
events whose `namespace` is `Output`. -/
def run_event (b : Behavior σ) (event_in : Event) (events_out : List Event)
    (stream : List (StreamEntry σ)) (state : σ.StateT) (loopback : σ.LoopbackT) :
    List Event × List (StreamEntry σ) × σ.StateT × σ.LoopbackT :=
  let r := run_entries b [event_in] stream state loopback
  (events_out ++ r.1.filter (fun event => decide (event.«namespace» = Namespace.Output)), r.2)

/-- One arm of the `match &mut stream[index]` dispatch inside `run_wakeup`
of `src/stream.rs`: only `Hook`, `Delay` and `Withhold` entries react to a
wakeup; `Delay` and `Withhold` may push events into the scratch buffer. -/
def wakeup_entry (b : Behavior σ) (entry : StreamEntry σ) (token : σ.TokenT) :
    List Event × StreamEntry σ :=
  match entry with
  | .Map m => ([], .Map m)
  | .Toggle t => ([], .Toggle t)
  | .Merge m => ([], .Merge m)
  | .Hook h => ([], .Hook (b.hook_wakeup h token))
  | .Delay d =>
      let r := b.delay_wakeup d token
      (r.1, .Delay r.2)
  | .Withhold w =>
      let r := b.withhold_wakeup w token
      (r.1, .Withhold r.2)
  | .Print p => ([], .Print p)

/-- The `for event in events.drain(..)` loop of `run_wakeup` in
`src/stream.rs`: run `run_event` once per drained event on the same
(mutated) entry slice. -/
def run_events_seq (b : Behavior σ) :
    List Event → List Event → List (StreamEntry σ) → σ.StateT → σ.LoopbackT →
    List Event × List (StreamEntry σ) × σ.StateT × σ.LoopbackT
  | [], events_out, stream, state, loopback => (events_out, stream, state, loopback)
  | event :: events, events_out, stream, state, loopback =>
      let r := run_event b event events_out stream state loopback
      run_events_seq b events r.1 r.2.1 r.2.2.1 r.2.2.2

theorem run_entries_stream_length (b : Behavior σ) (events : List Event)
    (stream : List (StreamEntry σ)) (state : σ.StateT) (loopback : σ.LoopbackT) :
    ((run_entries b events stream state loopback).2.1).length = stream.length := by
  induction stream generalizing events state loopback with
  | nil => rfl
  | cons entry rest ih => simp [run_entries, ih]

theorem run_event_stream_length (b : Behavior σ) (event : Event) (events_out : List Event)
    (stream : List (StreamEntry σ)) (state : σ.StateT) (loopback : σ.LoopbackT) :
    ((run_event b event events_out stream state loopback).2.1).length = stream.length := by
  simp [run_event, run_entries_stream_length]

theorem run_events_seq_stream_length (b : Behavior σ) (events events_out : List Event)
    (stream : List (StreamEntry σ)) (state : σ.StateT) (loopback : σ.LoopbackT) :
    ((run_events_seq b events events_out stream state loopback).2.1).length = stream.length := by
  induction events generalizing events_out stream state loopback with
  | nil => rfl
  | cons event rest ih =>
      simp only [run_events_seq]
      rw [ih]
      exact run_event_stream_length b event events_out stream state loopback

/-- The function `run_wakeup` of `src/stream.rs`, starting at index `i` of
its `for index in 0 .. stream.len()` loop.  At each index the entry's
`wakeup` runs, entry `i` is replaced by its mutated self, and every drained
event is fed to `run_event` on the sub-slice `&mut stream[index+1..]`
(modelled as `drop (i+1)`, the mutated suffix being written back in place). -/
def run_wakeup_from (b : Behavior σ) (token : σ.TokenT) (i : Nat) (events_out : List Event)
    (stream : List (StreamEntry σ)) (state : σ.StateT) (loopback : σ.LoopbackT) :
    List Event × List (StreamEntry σ) × σ.StateT × σ.LoopbackT :=
  if h : i < stream.length then
    let w := wakeup_entry b (stream.get ⟨i, h⟩) token
    let stream1 := stream.set i w.2
    let r := run_events_seq b w.1 events_out (stream1.drop (i + 1)) state loopback
    let stream2 := stream1.take (i + 1) ++ r.2.1
    run_wakeup_from b token (i + 1) r.1 stream2 r.2.2.1 r.2.2.2
  else
    (events_out, stream, state, loopback)
termination_by stream.length - i
decreasing_by
  simp only [List.length_append, List.length_take, List.length_set,
    run_events_seq_stream_length, List.length_drop]
  omega

/-- The function `run_wakeup` of `src/stream.rs`: the index loop started
at 0. -/
def run_wakeup (b : Behavior σ) (token : σ.TokenT) (events_out : List Event)
    (stream : List (StreamEntry σ)) (state : σ.StateT) (loopback : σ.LoopbackT) :
    List Event × List (StreamEntry σ) × σ.StateT × σ.LoopbackT :=
  run_wakeup_from b token 0 events_out stream state loopback

/-- Specification-shaped reformulation of `run_wakeup`, following the spec's
sentence that a wakeup's events are fed into `run_event` "starting at the
next entry": the recursion hands the events produced by the head entry, and
the rest of the walk, only the strict tail — the producing entry and the
already-processed prefix are never passed on, so no produced event can
re-enter them. -/
def run_wakeup_suffixes (b : Behavior σ) (token : σ.TokenT) :
    List Event → List (StreamEntry σ) → σ.StateT → σ.LoopbackT →
    List Event × List (StreamEntry σ) × σ.StateT × σ.LoopbackT
  | events_out, [], state, loopback => (events_out, [], state, loopback)
  | events_out, entry :: rest, state, loopback =>
      let w := wakeup_entry b entry token
      let r := run_events_seq b w.1 events_out rest state loopback
      let q := run_wakeup_suffixes b token r.1 r.2.1 r.2.2.1 r.2.2.2
      (q.1, w.2 :: q.2.1, q.2.2)
termination_by _ stream _ _ => stream.length
decreasing_by
  simp only [run_events_seq_stream_length, List.length_cons]
  omega

/-! ## Association-list maps

The source keeps `input_caps : InputCapabilites` (a `HashMap<Domain,
Capabilities>`) and per-device state in `HashMap`s; only `insert` (which
returns the previous value) and lookup are used.  A `HashMap` observed
through those two operations is an association list with replacing
insert. -/

def lookupAssoc {α β : Type} [DecidableEq α] : List (α × β) → α → Option β
  | [], _ => none
  | (k, v) :: rest, key => if key = k then some v else lookupAssoc rest key

def insertAssoc {α β : Type} [DecidableEq α] : List (α × β) → α → β → List (α × β)
  | [], key, v => [(key, v)]
  | (k, w) :: rest, key, v =>
      if key = k then (k, v) :: rest else (k, w) :: insertAssoc rest key v

theorem lookupAssoc_insertAssoc_self {α β : Type} [DecidableEq α]
    (l : List (α × β)) (key : α) (v : β) :
    lookupAssoc (insertAssoc l key v) key = some v := by
  induction l with
  | nil => simp [insertAssoc, lookupAssoc]
  | cons head rest ih =>
      by_cases h : key = head.1
      · simp [insertAssoc, lookupAssoc, h]
      · simp [insertAssoc, lookupAssoc, h, ih]

theorem lookupAssoc_insertAssoc_other {α β : Type} [DecidableEq α]
    (l : List (α × β)) (key key' : α) (v : β) (hne : key' ≠ key) :
    lookupAssoc (insertAssoc l key v) key' = lookupAssoc l key' := by
  induction l with
  | nil => simp [insertAssoc, lookupAssoc, hne]
  | cons head rest ih =>
      by_cases h : key = head.1
      · subst h
        simp [insertAssoc, lookupAssoc, hne]
      · by_cases h' : key' = head.1
        · simp [insertAssoc, lookupAssoc, h, h']
        · simp [insertAssoc, lookupAssoc, h, h', ih]

/-! ## The Setup runtime (src/stream.rs) -/

/-- The `Setup` struct of `src/stream.rs`.  The loopback handle obtained by
`run` from `self.loopback.get_handle_lazy()` is identified with the loopback
itself (the `loopback` module is not among the shipped sources). -/
structure Setup (σ : Sig) where
  stream : List (StreamEntry σ)
  output : σ.OutputT
  state : σ.StateT
  loopback : σ.LoopbackT
  input_caps : List (Domain × σ.CapsT)
  staged_events : List Event

/-- The function `syn` of `src/stream.rs`: route the staged events to the
output system, clear the staged buffer, then synchronize the output
devices. -/
def syn (b : Behavior σ) (setup : Setup σ) : Setup σ :=
  { setup with
      output := b.synchronize (b.route_events setup.output setup.staged_events),
      staged_events := [] }

/-- The function `run` of `src/stream.rs`: a synchronization event triggers
`syn`; any other event is fed to `run_event` with the staged-events buffer
as `events_out`. -/
def run (b : Behavior σ) (setup : Setup σ) (event : Event) : Setup σ :=
  if EventType.is_syn event.ev_type then
    syn b setup
  else
    let r := run_event b event setup.staged_events setup.stream setup.state setup.loopback
    { setup with
        staged_events := r.1, stream := r.2.1, state := r.2.2.1, loopback := r.2.2.2 }

/-! ## The capability pass (src/stream.rs) -/

/-- The `match entry` dispatch inside `run_caps` of `src/stream.rs`: `Map`,
`Toggle` and `Hook` apply `apply_to_all_caps` (with the buffer swap);
`Merge`, `Print`, `Delay` and `Withhold` leave the capabilities untouched.
`run_caps` borrows the stream immutably, so no payload changes here. -/
def run_caps_entry (b : Behavior σ) (entry : StreamEntry σ) (caps : List σ.CapT) :
    List σ.CapT :=
  match entry with
  | .Map m => b.map_apply_to_all_caps m caps
  | .Toggle t => b.toggle_apply_to_all_caps t caps
  | .Merge _ => caps
  | .Hook h => b.hook_apply_to_all_caps h caps
  | .Print _ => caps
  | .Delay _ => caps
  | .Withhold _ => caps

/-- The `for entry in stream` loop of `run_caps` in `src/stream.rs`,
carrying the current capability vector and `last_num_caps`: after each
entry, if the vector has grown to at least twice `last_num_caps`, it is
aggregated and `last_num_caps` becomes the aggregated length. -/
def run_caps_loop (b : Behavior σ) :
    List (StreamEntry σ) → List σ.CapT → Nat → List σ.CapT
  | [], caps, _ => caps
  | entry :: rest, caps, last_num_caps =>
      let caps1 := run_caps_entry b entry caps
      if caps1.length ≥ 2 * last_num_caps then
        run_caps_loop b rest (b.aggregate_capabilities caps1)
          (b.aggregate_capabilities caps1).length
      else
        run_caps_loop b rest caps1 last_num_caps

/-- The function `run_caps` of `src/stream.rs`: `last_num_caps` starts at
the length of the input vector, and at the end only capabilities whose
`namespace` is `Output` are kept. -/
def run_caps (b : Behavior σ) (stream : List (StreamEntry σ))
    (capabilities : List σ.CapT) : List σ.CapT :=
  (run_caps_loop b stream capabilities capabilities.length).filter
    (fun cap => decide (b.cap_namespace cap = Namespace.Output))

/-- Specification-shaped aggregation policy, following the spec's sentence:
the aggregation step runs after an entry exactly when the current capability
count has at least doubled relative to the count recorded after the last
aggregation, and the recorded count becomes the post-aggregation size. -/
def aggregate_if_doubled (b : Behavior σ) (p : List σ.CapT × Nat) : List σ.CapT × Nat :=
  if 2 * p.2 ≤ p.1.length then
    (b.aggregate_capabilities p.1, (b.aggregate_capabilities p.1).length)
  else
    p

/-- Specification-shaped reformulation of `run_caps`: a fold that applies
each entry's capability transformation and then the `aggregate_if_doubled`
policy, starting from the input vector and its length as the recorded
count. -/
def run_caps_spec (b : Behavior σ) (stream : List (StreamEntry σ))
    (capabilities : List σ.CapT) : List σ.CapT :=
  ((stream.foldl (fun p entry => aggregate_if_doubled b (run_caps_entry b entry p.1, p.2))
      (capabilities, capabilities.length)).1).filter
    (fun cap => decide (b.cap_namespace cap = Namespace.Output))

/-- The method `Setup::update_caps` of `src/stream.rs`, the shared tail of
both recompute paths: rebuild the capability vector from `input_caps`, run
it through the stream, and hand the result to the output system. -/
def update_caps_recompute (b : Behavior σ) (setup : Setup σ) : Setup σ :=
  { setup with
      output := b.output_update_caps setup.output
        (run_caps b setup.stream (b.input_caps_to_vec setup.input_caps)) }

/-- The method `Setup::update_caps` of `src/stream.rs`: insert the new
device's capabilities under its domain (remembering the previous entry);
if a previous entry existed and the new capabilities are compatible with
it, stop; otherwise recompute the output capabilities and update the output
system.  The new device is given by its `domain()` and `capabilities()`. -/
def Setup.update_caps (b : Behavior σ) (setup : Setup σ)
    (new_domain : Domain) (new_caps : σ.CapsT) : Setup σ :=
  let old_caps_opt := lookupAssoc setup.input_caps new_domain
  let setup1 := { setup with input_caps := insertAssoc setup.input_caps new_domain new_caps }
  match old_caps_opt with
  | some old_caps =>
      if b.is_compatible_with new_caps old_caps then setup1
      else update_caps_recompute b setup1
  | none => update_caps_recompute b setup1

/-! ## The input device (src/io/input.rs) -/

/-- A `(type, code)` pair: `src/io/input.rs` handles event codes together
with their event type (`event_code.ev_type()`, `event_code.code()`). -/
abbrev Code := EventType × EventCode

/-- Modelled from the spec: the grab modes of the missing `predevice`
module — "`None` — never grab. `Force` — grab immediately on open and on
every poll until successful. `Auto` — grab only when no key is currently
pressed in the device's state." -/
inductive GrabMode where
  | None
  | Force
  | Auto
deriving DecidableEq, Repr

/-- The `SystemError` of the missing `error` module, observed through
`SystemError::new(message)` only. -/
structure SystemError where
  msg : String
deriving DecidableEq, Repr

/-- Modelled from the spec: the kernel-library grab call
(`libevdev_grab`) takes a mode constant; the spec requires "a dedicated
ungrab call", i.e. the ungrab constant rather than the grab constant.  The
`bindings/libevdev` module is not among the shipped sources. -/
inductive libevdev_grab_mode where
  | LIBEVDEV_GRAB
  | LIBEVDEV_UNGRAB
deriving DecidableEq, Repr

/-- The mode constant `InputDevice::grab` of `src/io/input.rs` passes to
`libevdev_grab`: `libevdev_grab_mode_LIBEVDEV_GRAB`. -/
def grab_mode_passed_by_grab : libevdev_grab_mode := libevdev_grab_mode.LIBEVDEV_GRAB

/-- The mode constant `InputDevice::ungrab` of `src/io/input.rs` passes to
`libevdev_grab`: the source writes `libevdev_grab_mode_LIBEVDEV_GRAB`
there as well. -/
def grab_mode_passed_by_ungrab : libevdev_grab_mode := libevdev_grab_mode.LIBEVDEV_GRAB

/-- The `InputDevice` struct of `src/io/input.rs`, restricted to the fields
its event-handling methods read: the kernel handle and file are held by the
surrounding process, the capabilities are only read at open. -/
structure InputDevice where
  path : String
  grab_mode : GrabMode
  grabbed : Bool
  domain : Domain
  state : List (Code × EventValue)
deriving DecidableEq, Repr

/-- The method `InputDevice::grab` of `src/io/input.rs`.  The return value
of the kernel call `libevdev_grab` is an input here (`grab_res`): negative
means failure. -/
def InputDevice.grab (dev : InputDevice) (grab_res : Int) : Except SystemError InputDevice :=
  if grab_res < 0 then
    Except.error ⟨"Failed to grab event device: " ++ dev.path⟩
  else
    Except.ok { dev with grabbed := true }

/-- The method `InputDevice::ungrab` of `src/io/input.rs`, with the kernel
call's return value as input. -/
def InputDevice.ungrab (dev : InputDevice) (grab_res : Int) : Except SystemError InputDevice :=
  if grab_res < 0 then
    Except.error ⟨"Failed to ungrab event device: " ++ dev.path⟩
  else
    Except.ok { dev with grabbed := false }

/-- The method `InputDevice::grab_if_desired` of `src/io/input.rs`: nothing
to do when already grabbed or when the mode is `None`; `Force` always
grabs; `Auto` grabs only when no key-type code in the device state has a
positive value.  `is_key` stands for `ev_type().is_key()` of the missing
`ecodes` module. -/
def InputDevice.grab_if_desired (is_key : EventType → Bool) (dev : InputDevice)
    (grab_res : Int) : Except SystemError InputDevice :=
  if dev.grabbed then
    Except.ok dev
  else
    match dev.grab_mode with
    | GrabMode.None => Except.ok dev
    | GrabMode.Force => dev.grab grab_res
    | GrabMode.Auto =>
        if dev.state.any (fun p => is_key p.1.1 && decide (p.2 > 0)) then
          Except.ok dev
        else
          dev.grab grab_res

/-- The body of the `for (code, value) in self.read_raw()?` loop of
`InputDevice::poll` in `src/io/input.rs`: read the previous value of the
code from the state map (0 if absent), overwrite it with the new value, and
emit an `Input`-namespace event carrying both. -/
def poll_step (acc : List Event × InputDevice) (p : Code × EventValue) :
    List Event × InputDevice :=
  let previous_value := (lookupAssoc acc.2.state p.1).getD 0
  (acc.1 ++ [Event.new p.1.1 p.1.2 p.2 previous_value acc.2.domain Namespace.Input],
   { acc.2 with state := insertAssoc acc.2.state p.1 p.2 })

/-- The method `InputDevice::poll` of `src/io/input.rs`.  The outcome of
`read_raw` (the drained kernel queue, or a read error) and the kernel
return value of a grab attempt are inputs.  A read error propagates; after
decoding, `grab_if_desired` runs and its error propagates too (the `?` on
`self.grab_if_desired()`). -/
def InputDevice.poll (is_key : EventType → Bool) (dev : InputDevice)
    (raw : Except SystemError (List (Code × EventValue))) (grab_res : Int) :
    Except SystemError (List Event × InputDevice) :=
  match raw with
  | Except.error e => Except.error e
  | Except.ok pairs =>
      let r := pairs.foldl poll_step ([], dev)
      match InputDevice.grab_if_desired is_key r.2 grab_res with
      | Except.error e => Except.error e
      | Except.ok dev1 => Except.ok (r.1, dev1)

/-- Smallest `i32`. -/
def i32_min : Int := -(2 ^ 31)

/-- Largest `i32`. -/
def i32_max : Int := 2 ^ 31 - 1

/-- Rust's `i32::checked_add`: the sum when it fits in an `i32`, `None`
otherwise. -/
def i32_checked_add (a b : Int) : Option Int :=
  if i32_min ≤ a + b ∧ a + b ≤ i32_max then some (a + b) else none

/-- The `AbsInfo` record of the missing `capability` module; `src/io/input.rs`
reads its `min_value` and `max_value`, the remaining fields are the axis
parameters the spec lists. -/
structure AbsInfo where
  min_value : Int
  max_value : Int
  fuzz : Int
  flat : Int
  resolution : Int
deriving DecidableEq, Repr

/-- The key-repeat parameters (`RepeatInfo { delay, period }`) queried in
`src/io/input.rs`. -/
structure RepeatInfo where
  delay : Int
  period : Int
deriving DecidableEq, Repr

/-- The `Capabilities` record of the missing `capability` module, as built
by `get_capabilities` in `src/io/input.rs`: the supported codes, the
per-code `abs_info` map, and the repeat info. -/
structure Capabilities where
  codes : List Code
  abs_info : List (Code × AbsInfo)
  rep_info : Option RepeatInfo
deriving DecidableEq, Repr

/-- The per-code value computed by `get_device_state` of `src/io/input.rs`:
a non-`ABS_MT_*` code gets the value queried from the kernel library
(`libevdev_get_event_value`, the input `get_event_value` here); an
`ABS_MT_*` code gets the placeholder
`checked_add(min, max).map(|x| x / 2).unwrap_or(0)` from its `abs_info`,
or 0 when the code has no `abs_info`.  Rust's `/` on `i32` truncates toward
zero, hence `Int.tdiv`.  `is_abs_mt` stands for `ecodes::is_abs_mt` of the
missing `ecodes` module. -/
def device_state_value (is_abs_mt : Code → Bool) (get_event_value : Code → EventValue)
    (capabilities : Capabilities) (code : Code) : EventValue :=
  if ! is_abs_mt code then
    get_event_value code
  else
    match lookupAssoc capabilities.abs_info code with
    | some abs_info =>
        ((i32_checked_add abs_info.min_value abs_info.max_value).map
          (fun x => Int.tdiv x 2)).getD 0
    | none => 0

/-- The function `get_device_state` of `src/io/input.rs`: insert the
per-code value for every supported code into a fresh state map. -/
def get_device_state (is_abs_mt : Code → Bool) (get_event_value : Code → EventValue)
    (capabilities : Capabilities) : List (Code × EventValue) :=
  capabilities.codes.foldl
    (fun device_state code =>
      insertAssoc device_state code
        (device_state_value is_abs_mt get_event_value capabilities code))
    []

/-! ## The dispatch loop (src/main.rs) -/

/-- The `Action` enum of `src/main.rs`. -/
inductive Action where
  | Continue
  | Exit
deriving DecidableEq, Repr

/-- The `Pollable` enum of `src/main.rs`.  The signal-descriptor and
persistence-interface payloads play no role in the counting and ejection
logic embedded here. -/
inductive Pollable where
  | InputDevice : InputDevice → Pollable
  | SignalFd : Pollable
  | PersistSubsystem : Pollable
deriving DecidableEq, Repr

/-- A stable index into the epoll, as in `src/main.rs`. -/
abbrev FileIndex := Nat

/-- Modelled from the spec: the `Epoll` of the missing `io/epoll` module is
"a type-erased readiness multiplexer holding a collection of pollable
sources", "each source addressable by a stable `FileIndex`", with
`remove(index) → src | None` and an iterator `files()` over the held
sources. -/
abbrev Epoll := List (FileIndex × Pollable)

/-- Modelled from the spec: `Epoll::files()`, the held sources. -/
def Epoll.files (epoll : Epoll) : List Pollable := epoll.map Prod.snd

def removeAssoc {α β : Type} [DecidableEq α] : List (α × β) → α → List (α × β)
  | [], _ => []
  | (k, v) :: rest, key => if key = k then rest else (k, v) :: removeAssoc rest key

/-- Modelled from the spec: `Epoll::remove(index)` yields the removed
source, if any, and the epoll without it. -/
def Epoll.remove (epoll : Epoll) (index : FileIndex) : Option Pollable × Epoll :=
  (lookupAssoc epoll index, removeAssoc epoll index)

/-- The function `count_remaining_input_devices` of `src/main.rs`: count
the input devices among the epoll's files — and then return that count
plus one (the source's `result + 1 // TODO REMOVE`). -/
def count_remaining_input_devices (epoll : Epoll) : Nat :=
  (epoll.files.foldl
    (fun result file =>
      match file with
      | Pollable.InputDevice _ => result + 1
      | _ => result)
    0) + 1

/-- The function `handle_broken_file` of `src/main.rs`: remove the broken
file from the epoll.  An unknown index only prints an internal error; a
broken input device keeps the loop running unless
`count_remaining_input_devices` of the remaining epoll is 0; a broken
signal descriptor is fatal; a broken persistence interface keeps the loop
running.  The persistence bookkeeping (blueprint registration) touches only
the out-of-scope persistence subsystem and is not modelled. -/
def handle_broken_file (epoll : Epoll) (index : FileIndex) : Action × Epoll :=
  match Epoll.remove epoll index with
  | (none, epoll1) => (Action.Continue, epoll1)
  | (some (Pollable.InputDevice _), epoll1) =>
      if count_remaining_input_devices epoll1 = 0 then
        (Action.Exit, epoll1)
      else
        (Action.Continue, epoll1)
  | (some Pollable.SignalFd, epoll1) => (Action.Exit, epoll1)
  | (some Pollable.PersistSubsystem, epoll1) => (Action.Continue, epoll1)

/-- The `Pollable::InputDevice` arm of `handle_ready_file` in
`src/main.rs`: when the device's `poll` succeeds, each returned event is
fed to `stream::run` and the loop continues; when it fails, the error is
reported and the device is handled as broken. -/
def handle_ready_input_device (b : Behavior σ) (setup : Setup σ) (epoll : Epoll)
    (index : FileIndex) (poll_result : Except SystemError (List Event × InputDevice)) :
    Action × Setup σ × Epoll :=
  match poll_result with
  | Except.ok (events, _dev) => (Action.Continue, events.foldl (run b) setup, epoll)
  | Except.error _ =>
      let r := handle_broken_file epoll index
      (r.1, setup, r.2)

theorem run_caps_loop_eq_foldl (b : Behavior σ) :
    ∀ (stream : List (StreamEntry σ)) (caps : List σ.CapT) (last_num_caps : Nat),
    run_caps_loop b stream caps last_num_caps
      = (stream.foldl
          (fun p entry => aggregate_if_doubled b (run_caps_entry b entry p.1, p.2))
          (caps, last_num_caps)).1 := by
  intro stream
  induction stream with
  | nil => intro caps last_num_caps; rfl
  | cons entry rest ih =>
      intro caps last_num_caps
      simp only [run_caps_loop, List.foldl_cons]
      by_cases h : 2 * last_num_caps ≤ (run_caps_entry b entry caps).length <;>
        simp [aggregate_if_doubled, h, ih]

theorem lookupAssoc_foldl_insertAssoc {α β : Type} [DecidableEq α] (f : α → β) :
    ∀ (codes : List α) (init : List (α × β)) (key : α),
    lookupAssoc (codes.foldl (fun m c => insertAssoc m c (f c)) init) key
      = if key ∈ codes then some (f key) else lookupAssoc init key := by
  intro codes
  induction codes with
  | nil => intro init key; simp
  | cons c rest ih =>
      intro init key
      simp only [List.foldl_cons]
      rw [ih]
      by_cases hmem : key ∈ rest
      · simp [hmem, List.mem_cons]
      · by_cases hkc : key = c
        · subst hkc
          simp [hmem, lookupAssoc_insertAssoc_self]
        · simp [hmem, hkc, lookupAssoc_insertAssoc_other _ _ _ _ hkc, List.mem_cons]

/-! ## Concrete instances used to evaluate the theorems -/

/-- The signature with every abstract type instantiated by `Unit`. -/
def unitSig : Sig where
  MapT := Unit
  HookT := Unit
  ToggleT := Unit
  PrintT := Unit
  MergeT := Unit
  WithholdT := Unit
  DelayT := Unit
  StateT := Unit
  LoopbackT := Unit
  TokenT := Unit
  OutputT := Unit
  CapT := Unit
  CapsT := Unit

/-- The identity-like behaviour over `unitSig`. -/
def unitBehavior : Behavior unitSig where
  map_apply_to_all := fun m events => (events, m)
  toggle_apply_to_all := fun t events state => (events, t, state)
  merge_apply_to_all := fun m events => (events, m)
  hook_apply_to_all := fun h events state loopback => (events, h, state, loopback)
  delay_apply_to_all := fun d events loopback => (events, d, loopback)
  withhold_apply_to_all := fun w events loopback => (events, w, loopback)
  print_apply_to_all := fun p _ => p
  hook_wakeup := fun h _ => h
  delay_wakeup := fun d _ => ([], d)
  withhold_wakeup := fun w _ => ([], w)
  map_apply_to_all_caps := fun _ caps => caps
  toggle_apply_to_all_caps := fun _ caps => caps
  hook_apply_to_all_caps := fun _ caps => caps
  aggregate_capabilities := fun caps => caps
  cap_namespace := fun _ => Namespace.Output
  input_caps_to_vec := fun _ => []
  is_compatible_with := fun _ _ => true
  route_events := fun o _ => o
  synchronize := fun o => o
  output_update_caps := fun o _ => o

/-- An empty runtime over `unitSig`. -/
def unitSetup : Setup unitSig where
  stream := []
  output := ()
  state := ()
  loopback := ()
  input_caps := []
  staged_events := []

/-- A force-grabbed input device used as concrete input. -/
def forceDevice : InputDevice where
  path := "/dev/input/event0"
  grab_mode := GrabMode.Force
  grabbed := false
  domain := 0
  state := []

/-- An ungrabbed device used as concrete input for the broken-device path. -/
def plainDevice : InputDevice where
  path := "/dev/input/event5"
  grab_mode := GrabMode.None
  grabbed := false
  domain := 0
  state := []

/-- A concrete multi-touch code predicate: kernel type `EV_ABS` (3) with a
code in the `ABS_MT_*` range `0x2f ..= 0x3e`. -/
def absMtExample : Code → Bool :=
  fun code => decide (code.1 = 3 ∧ 47 ≤ code.2 ∧ code.2 ≤ 62)

/-- Capabilities holding one `ABS_MT_*` code whose `abs_info` bounds sum
beyond `i32::MAX`: `min = 1`, `max = 2^31 - 1`. -/
def mtOverflowCaps : Capabilities where
  codes := [(3, 58)]
  abs_info := [((3, 58), { min_value := 1, max_value := 2 ^ 31 - 1,
                           fuzz := 0, flat := 0, resolution := 0 })]
  rep_info := none

/-- Capabilities holding one `ABS_MT_*` code with small `abs_info` bounds. -/
def mtSmallCaps : Capabilities where
  codes := [(3, 53)]
  abs_info := [((3, 53), { min_value := 0, max_value := 10,
                           fuzz := 0, flat := 0, resolution := 0 })]
  rep_info := none

/-! ## Theorems -/

/-- C1: every event `run_event` appends to the staged-events buffer
(`events_out`) has namespace `Output`; an event whose namespace after the
last entry is `Input`, `User` or `Yielded` is never appended. -/
theorem claim_C1_staged_events_are_output {σ : Sig} (b : Behavior σ) (event_in : Event)
    (events_out : List Event) (stream : List (StreamEntry σ)) (state : σ.StateT)
    (loopback : σ.LoopbackT) (e : Event)
    (he : e ∈ (run_event b event_in events_out stream state loopback).1) :
    e ∈ events_out ∨ e.«namespace» = Namespace.Output := by
  unfold run_event at he
  rcases List.mem_append.mp he with h | h
  · exact Or.inl h
  · exact Or.inr (of_decide_eq_true (List.mem_filter.mp h).2)

theorem claim_C1_witness :
    (Event.new 1 30 1 0 0 Namespace.Output)
        ∈ (run_event unitBehavior (Event.new 1 30 1 0 0 Namespace.Output) [] [] () ()).1
    ∧ ((Event.new 1 30 1 0 0 Namespace.Output) ∈ ([] : List Event)
        ∨ (Event.new 1 30 1 0 0 Namespace.Output).«namespace» = Namespace.Output) := by
  have hmem : (Event.new 1 30 1 0 0 Namespace.Output)
      ∈ (run_event unitBehavior (Event.new 1 30 1 0 0 Namespace.Output) [] [] () ()).1 := by
    decide
  exact ⟨hmem,
    claim_C1_staged_events_are_output unitBehavior (Event.new 1 30 1 0 0 Namespace.Output)
      [] [] () () (Event.new 1 30 1 0 0 Namespace.Output) hmem⟩

/-- C2: a synchronization event is not fed through the stream entries;
`run` performs `syn`, which routes the staged buffer to the output system,
clears it, then synchronizes the output devices; directly after `syn` the
staged buffer is empty and the stream is untouched. -/
theorem claim_C2_syn_event_triggers_syn {σ : Sig} (b : Behavior σ) (setup : Setup σ)
    (event : Event) (h : EventType.is_syn event.ev_type = true) :
    run b setup event = syn b setup
    ∧ syn b setup
        = { setup with
              output := b.synchronize (b.route_events setup.output setup.staged_events),
              staged_events := [] }
    ∧ (syn b setup).staged_events = []
    ∧ (run b setup event).stream = setup.stream := by
  refine ⟨by simp [run, h], rfl, rfl, by simp [run, h, syn]⟩

theorem claim_C2_witness :
    EventType.is_syn (Event.new 0 0 0 0 0 Namespace.Input).ev_type = true
    ∧ (run unitBehavior unitSetup (Event.new 0 0 0 0 0 Namespace.Input)
         = syn unitBehavior unitSetup
       ∧ syn unitBehavior unitSetup
           = { unitSetup with
                 output := unitBehavior.synchronize
                   (unitBehavior.route_events unitSetup.output unitSetup.staged_events),
                 staged_events := [] }
       ∧ (syn unitBehavior unitSetup).staged_events = []
       ∧ (run unitBehavior unitSetup (Event.new 0 0 0 0 0 Namespace.Input)).stream
           = unitSetup.stream) :=
  ⟨rfl, claim_C2_syn_event_triggers_syn unitBehavior unitSetup _ rfl⟩

theorem get_append_length {α : Type} :
    ∀ (done : List α) (x : α) (rest : List α)
      (h : done.length < (done ++ x :: rest).length),
    (done ++ x :: rest).get ⟨done.length, h⟩ = x := by
  intro done
  induction done with
  | nil => intro x rest h; rfl
  | cons d ds ih => intro x rest h; exact ih x rest (by simp)

theorem set_append_length {α : Type} :
    ∀ (done : List α) (x : α) (rest : List α) (v : α),
    (done ++ x :: rest).set done.length v = done ++ v :: rest := by
  intro done
  induction done with
  | nil => intro x rest v; rfl
  | cons d ds ih => intro x rest v; simp [List.set, ih]

theorem drop_append_length {α : Type} :
    ∀ (done : List α) (x : α) (rest : List α),
    (done ++ x :: rest).drop (done.length + 1) = rest := by
  intro done
  induction done with
  | nil => intro x rest; rfl
  | cons d ds ih => intro x rest; simp [List.drop, ih]

theorem take_append_length {α : Type} :
    ∀ (done : List α) (x : α) (rest : List α),
    (done ++ x :: rest).take (done.length + 1) = done ++ [x] := by
  intro done
  induction done with
  | nil => intro x rest; rfl
  | cons d ds ih => intro x rest; simpa [List.take] using ih x rest

theorem run_wakeup_from_append (b : Behavior σ) (token : σ.TokenT) :
    ∀ (n : Nat) (todo : List (StreamEntry σ)), todo.length = n →
    ∀ (done : List (StreamEntry σ)) (events_out : List Event) (state : σ.StateT)
      (loopback : σ.LoopbackT),
    run_wakeup_from b token done.length events_out (done ++ todo) state loopback
      = ((run_wakeup_suffixes b token events_out todo state loopback).1,
         done ++ (run_wakeup_suffixes b token events_out todo state loopback).2.1,
         (run_wakeup_suffixes b token events_out todo state loopback).2.2) := by
  intro n
  induction n with
  | zero =>
      intro todo htodo done events_out state loopback
      have h0 : todo = [] := List.length_eq_zero.mp htodo
      subst h0
      rw [run_wakeup_from]
      simp [run_wakeup_suffixes]
  | succ n ih =>
      intro todo htodo done events_out state loopback
      cases todo with
      | nil => simp at htodo
      | cons entry rest =>
          have hrest : rest.length = n := by simpa using htodo
          have hlt : done.length < (done ++ entry :: rest).length := by simp
          rw [run_wakeup_from, dif_pos hlt]
          simp only [get_append_length, set_append_length, drop_append_length,
            take_append_length]
          have hlen :
              ((run_events_seq b (wakeup_entry b entry token).1 events_out rest state
                  loopback).2.1).length = n := by
            rw [run_events_seq_stream_length]; exact hrest
          have hidx : done.length + 1 = (done ++ [(wakeup_entry b entry token).2]).length := by
            simp
          rw [hidx, ih _ hlen]
          simp [run_wakeup_suffixes, List.append_assoc]

/-- C3: during `run_wakeup`, the events emitted by the entry at position
`i` are fed to `run_event` on the sub-slice starting at index `i + 1`, so
they are processed only by the entries strictly after the producer: the
index loop equals the suffix recursion `run_wakeup_suffixes`, which by
construction never hands a produced event to the producing entry or to any
entry preceding it. -/
theorem claim_C3_wakeup_events_skip_producer {σ : Sig} (b : Behavior σ) (token : σ.TokenT)
    (events_out : List Event) (stream : List (StreamEntry σ)) (state : σ.StateT)
    (loopback : σ.LoopbackT) :
    run_wakeup b token events_out stream state loopback
      = run_wakeup_suffixes b token events_out stream state loopback := by
  have h := run_wakeup_from_append b token stream.length stream rfl [] events_out state loopback
  simpa [run_wakeup] using h

/-- C4: the claim asks `count_remaining_input_devices` for an exact count
and an `Action::Exit` within one iteration of removing the last input
device; the source instead returns the count plus one (its `result + 1`
carries a `TODO REMOVE` comment), so after the last input device is removed
the count is 1, never 0, and `handle_broken_file` answers
`Action::Continue`. -/
theorem claim_C4_count_off_by_one :
    count_remaining_input_devices [] = 1
    ∧ (handle_broken_file [(0, Pollable.InputDevice plainDevice)] 0).1 = Action.Continue
    ∧ (handle_broken_file [(0, Pollable.InputDevice plainDevice)] 0).2 = [] := by
  decide

/-- C5: the claim asks the ungrab operation to pass the dedicated ungrab
constant to `libevdev_grab`; the source's `InputDevice::ungrab` passes the
grab constant `LIBEVDEV_GRAB` instead, even though its error message and
the `Drop` implementation document an ungrab. -/
theorem claim_C5_ungrab_passes_grab_constant :
    grab_mode_passed_by_ungrab = libevdev_grab_mode.LIBEVDEV_GRAB
    ∧ grab_mode_passed_by_ungrab ≠ libevdev_grab_mode.LIBEVDEV_UNGRAB := by
  decide

theorem poll_foldl_preserves :
    ∀ (pairs : List (Code × EventValue)) (acc : List Event × InputDevice),
    ((pairs.foldl poll_step acc).2.grabbed = acc.2.grabbed)
    ∧ ((pairs.foldl poll_step acc).2.grab_mode = acc.2.grab_mode)
    ∧ ((pairs.foldl poll_step acc).2.path = acc.2.path) := by
  intro pairs
  induction pairs with
  | nil => intro acc; exact ⟨rfl, rfl, rfl⟩
  | cons p rest ih =>
      intro acc
      simpa [poll_step] using ih (poll_step acc p)

/-- C6 counterexample: a force-grab device whose kernel read yields one
event but whose grab attempt fails: `InputDevice::poll` propagates the grab
failure through its `self.grab_if_desired()?` and returns an error instead
of the batch of read events, so a grab failure is not non-fatal there. -/
theorem claim_C6_counterexample :
    InputDevice.poll (fun _ => false) forceDevice (Except.ok [((1, 30), 1)]) (-1)
      = Except.error ⟨"Failed to grab event device: /dev/input/event0"⟩
    ∧ (InputDevice.poll (fun _ => false) forceDevice
         (Except.ok [((1, 30), 1)]) (-1)).toOption = none :=
  ⟨rfl, rfl⟩

/-- C6 as amended: a failed grab attempt is propagated, not swallowed: for
a not-yet-grabbed device with grab mode `Force`, a failing kernel grab call
makes `InputDevice::poll` return the grab error instead of the batch of
read events, and `handle_ready_file` then reports the error and handles the
device as broken, removing it from the epoll. -/
theorem claim_C6_amended_grab_failure_propagates {σ : Sig} (b : Behavior σ)
    (setup : Setup σ) (epoll : Epoll) (index : FileIndex) (is_key : EventType → Bool)
    (dev : InputDevice) (pairs : List (Code × EventValue)) (grab_res : Int)
    (hgrabbed : dev.grabbed = false) (hmode : dev.grab_mode = GrabMode.Force)
    (hres : grab_res < 0) :
    InputDevice.poll is_key dev (Except.ok pairs) grab_res
      = Except.error ⟨"Failed to grab event device: " ++ dev.path⟩
    ∧ handle_ready_input_device b setup epoll index
        (InputDevice.poll is_key dev (Except.ok pairs) grab_res)
      = ((handle_broken_file epoll index).1, setup, (handle_broken_file epoll index).2) := by
  have hp := poll_foldl_preserves pairs ([], dev)
  have hg : InputDevice.grab_if_desired is_key (pairs.foldl poll_step ([], dev)).2 grab_res
      = Except.error ⟨"Failed to grab event device: " ++ dev.path⟩ := by
    unfold InputDevice.grab_if_desired
    rw [hp.1, hp.2.1, hgrabbed, hmode]
    simp [InputDevice.grab, hp.2.2, hres]
  have hok : InputDevice.poll is_key dev (Except.ok pairs) grab_res
      = match InputDevice.grab_if_desired is_key (pairs.foldl poll_step ([], dev)).2 grab_res with
        | Except.error e => Except.error e
        | Except.ok dev1 => Except.ok ((pairs.foldl poll_step ([], dev)).1, dev1) := rfl
  have hpoll : InputDevice.poll is_key dev (Except.ok pairs) grab_res
      = Except.error ⟨"Failed to grab event device: " ++ dev.path⟩ := by
    rw [hok, hg]
  exact ⟨hpoll, by rw [hpoll]; rfl⟩

theorem claim_C6_witness :
    forceDevice.grabbed = false
    ∧ forceDevice.grab_mode = GrabMode.Force
    ∧ ((-1 : Int) < 0)
    ∧ (InputDevice.poll (fun _ => false) forceDevice (Except.ok []) (-1)
         = Except.error ⟨"Failed to grab event device: " ++ forceDevice.path⟩
       ∧ handle_ready_input_device unitBehavior unitSetup [] 0
           (InputDevice.poll (fun _ => false) forceDevice (Except.ok []) (-1))
         = ((handle_broken_file [] 0).1, unitSetup, (handle_broken_file [] 0).2)) :=
  ⟨rfl, rfl, by decide,
   claim_C6_amended_grab_failure_propagates unitBehavior unitSetup [] 0
     (fun _ => false) forceDevice [] (-1) rfl rfl (by decide)⟩

/-- C7: `run_caps` aggregates after processing an entry exactly when the
capability count has at least doubled relative to the count recorded after
the last aggregation (initially the input count), updating the recorded
count to the post-aggregation size — stated as equality with the
fold of the spec's aggregation policy `aggregate_if_doubled`. -/
theorem claim_C7_run_caps_aggregation_policy {σ : Sig} (b : Behavior σ)
    (stream : List (StreamEntry σ)) (capabilities : List σ.CapT) :
    run_caps b stream capabilities = run_caps_spec b stream capabilities := by
  unfold run_caps run_caps_spec
  rw [run_caps_loop_eq_foldl]

/-- C8: on the empty stream, `run_event` stages nothing for an event whose
namespace is `Input`, `User` or `Yielded`, and stages exactly the unchanged
event when its namespace is `Output`. -/
theorem claim_C8_empty_stream {σ : Sig} (b : Behavior σ) (event : Event)
    (events_out : List Event) (state : σ.StateT) (loopback : σ.LoopbackT) :
    (run_event b event events_out [] state loopback).1
      = events_out
        ++ (if event.«namespace» = Namespace.Output then [event] else []) := by
  by_cases h : event.«namespace» = Namespace.Output <;>
    simp [run_event, run_entries, List.filter, h]

/-- C9 counterexample: for an `ABS_MT_*` code whose `abs_info` bounds are
`min = 1`, `max = 2^31 - 1`, the recorded initial state is 0 — the checked
addition overflows — while `(min + max) / 2 = 2^30` is a perfectly
representable nonzero value, refuting the claim that the initial state is
`(min + max) / 2` whenever `abs_info` is present. -/
theorem claim_C9_counterexample :
    lookupAssoc (get_device_state absMtExample (fun _ => 0) mtOverflowCaps) (3, 58) = some 0
    ∧ Int.tdiv (1 + (2 ^ 31 - 1)) 2 = 1073741824
    ∧ (0 : Int) ≠ 1073741824 := by
  decide

/-- C9 as amended: for every `ABS_MT_*` code in the capabilities, the
initial state is `(min + max) / 2` (Rust truncating division) when the
checked `i32` addition `min + max` does not overflow, and 0 when it
overflows or when the code has no `abs_info`; every other supported code
gets the value queried from the kernel library. -/
theorem claim_C9_amended_initial_state (is_abs_mt : Code → Bool)
    (get_event_value : Code → EventValue) (capabilities : Capabilities) (code : Code)
    (h : code ∈ capabilities.codes) :
    lookupAssoc (get_device_state is_abs_mt get_event_value capabilities) code
      = some (if is_abs_mt code then
                match lookupAssoc capabilities.abs_info code with
                | some info =>
                    if i32_min ≤ info.min_value + info.max_value
                        ∧ info.min_value + info.max_value ≤ i32_max then
                      Int.tdiv (info.min_value + info.max_value) 2
                    else 0
                | none => 0
              else get_event_value code) := by
  unfold get_device_state
  rw [lookupAssoc_foldl_insertAssoc]
  simp only [h, if_pos]
  unfold device_state_value
  cases hmt : is_abs_mt code with
  | false => simp
  | true =>
      simp only [Bool.not_true, Bool.false_eq_true, if_false, if_true]
      cases hinfo : lookupAssoc capabilities.abs_info code with
      | none => simp
      | some info =>
          unfold i32_checked_add
          by_cases hrange : i32_min ≤ info.min_value + info.max_value
              ∧ info.min_value + info.max_value ≤ i32_max <;>
            simp [hrange]

theorem claim_C9_witness :
    (3, 53) ∈ mtSmallCaps.codes
    ∧ lookupAssoc (get_device_state absMtExample (fun _ => 7) mtSmallCaps) (3, 53)
        = some 5 :=
  ⟨by decide,
   (claim_C9_amended_initial_state absMtExample (fun _ => 7) mtSmallCaps (3, 53)
      (by decide)).trans (by decide)⟩

/-- C10: `Setup::update_caps` always stores the new device's capabilities
under its domain, even when they are compatible with the old ones; and when
the domain had no previous entry, the output capabilities are recomputed
and the output system's `update_caps` is invoked unconditionally. -/
theorem claim_C10_update_caps_bookkeeping {σ : Sig} (b : Behavior σ) (setup : Setup σ)
    (new_domain : Domain) (new_caps : σ.CapsT) :
    lookupAssoc ((Setup.update_caps b setup new_domain new_caps).input_caps) new_domain
      = some new_caps
    ∧ (lookupAssoc setup.input_caps new_domain = none →
        (Setup.update_caps b setup new_domain new_caps).output
          = b.output_update_caps setup.output
              (run_caps b setup.stream
                (b.input_caps_to_vec (insertAssoc setup.input_caps new_domain new_caps)))) := by
  constructor
  · unfold Setup.update_caps
    cases h : lookupAssoc setup.input_caps new_domain with
    | none => simp [update_caps_recompute, lookupAssoc_insertAssoc_self]
    | some old_caps =>
        by_cases hc : b.is_compatible_with new_caps old_caps <;>
          simp [hc, update_caps_recompute, lookupAssoc_insertAssoc_self]
  · intro h
    unfold Setup.update_caps
    rw [h]
    simp [update_caps_recompute]

end Evsieve
